import Mathlib

/-!
Shallow embedding of the skill-matching and scoring engine of the
TFO-Backend repository (src/tfo_chatbot.py, class TFOChatbot), together
with theorems settling the claims about it.

Modelling conventions:
* Python numbers (ints and floats flowing through the scoring arithmetic)
  are modelled as rationals.
* Calendar dates are modelled as integer day counts, so that the Python
  expression (a - b).days becomes integer subtraction a - b.
* Fallible code is modelled with Option: a Python expression that raises
  (integer or float division by zero, subtraction involving None) maps to
  none, and the Option is threaded through every caller.
* Python round(x, 2) uses round-half-to-even; round2 below implements the
  same rule on exact rationals.
* String fields irrelevant to every claim (formatted detail messages,
  the constant status "MATCHED" on matched rows, the recommendation and
  summary payloads) are omitted from the result records.
-/

namespace TFO

/-- Skill record held by an employee (an entry of Employee.skills in the
source, a dict with keys skill_name, category, experience_years,
proficiency_level). -/
structure EmpSkill where
  skill_name : String
  category : String
  experience_years : ℚ
  proficiency_level : String
  deriving DecidableEq, Repr

/-- Required-skill record without the is_mandatory flag: the shape of the
dicts produced by _parse_skill_requirements, and the part of a requisition
required-skill dict read by _calculate_skill_match_score. -/
structure ReqSkillCore where
  skill_name : String
  min_experience : ℚ
  required_level : String
  deriving DecidableEq, Repr

/-- Required-skill record held by a requisition (adds the is_mandatory
flag read by _calculate_employee_requisition_match). -/
structure ReqSkill extends ReqSkillCore where
  is_mandatory : Bool
  deriving DecidableEq, Repr

/-- Employee dataclass of the source. -/
structure Employee where
  employee_id : String
  name : String
  email : String
  current_status : String
  current_project : Option String
  project_end_date : Option ℤ
  bench_start_date : Option ℤ
  skills : List EmpSkill
  performance_rating : ℚ
  location : String
  deriving DecidableEq, Repr

/-- Requisition dataclass of the source. -/
structure Requisition where
  requisition_id : String
  project_name : String
  role_title : String
  status : String
  start_date : ℤ
  required_skills : List ReqSkill
  location : String
  experience_level : String
  hiring_type : String
  deriving DecidableEq, Repr

/-- Lowercasing of a character list, modelling Python str.lower() on the
ASCII strings the program manipulates. -/
def lowerChars (l : List Char) : List Char :=
  l.map Char.toLower

/-- Case-insensitive string equality, modelling the comparison
a.lower() == b.lower() used for skill-name lookups. -/
def ciEq (a b : String) : Bool :=
  lowerChars a.data == lowerChars b.data

/-- Lookup of an employee skill by case-insensitive name, modelling
next((s for s in employee.skills if s["skill_name"].lower() ==
req_skill["skill_name"].lower()), None). -/
def findEmpSkill (skills : List EmpSkill) (name : String) : Option EmpSkill :=
  skills.find? (fun s => ciEq s.skill_name name)

/-- The level_scores dict of _calculate_skill_match_score:
{"BEGINNER": 10, "INTERMEDIATE": 20, "ADVANCED": 30, "EXPERT": 30};
none models a key missing from the dict. -/
def levelScores (lvl : String) : Option ℚ :=
  if lvl = "BEGINNER" then some 10
  else if lvl = "INTERMEDIATE" then some 20
  else if lvl = "ADVANCED" then some 30
  else if lvl = "EXPERT" then some 30
  else none

/-- Arithmetic of _calculate_skill_match_score, meaningful when
min_experience is nonzero: experience component
min(min(experience_years / min_experience, 2.0) * 35, 70), plus
proficiency component min(level_scores.get(emp_level, 0),
level_scores.get(req_level, 15)), normalized by 100. -/
def calcSkillMatchScoreVal (e : EmpSkill) (r : ReqSkillCore) : ℚ :=
  (min (min (e.experience_years / r.min_experience) 2 * 35) 70
    + min ((levelScores e.proficiency_level).getD 0)
        ((levelScores r.required_level).getD 15)) / 100

/-- _calculate_skill_match_score. When min_experience = 0 the Python
division experience_years / min_experience raises ZeroDivisionError
(there is no guard in the body), modelled as none. -/
def calcSkillMatchScore (e : EmpSkill) (r : ReqSkillCore) : Option ℚ :=
  if r.min_experience = 0 then none
  else some (calcSkillMatchScoreVal e r)

/-- Round-half-to-even on rationals, the tie rule of Python round. -/
def roundHalfEven (q : ℚ) : ℤ :=
  let f := ⌊q⌋
  if q - f < 1 / 2 then f
  else if q - f > 1 / 2 then f + 1
  else if 2 ∣ f then f else f + 1

/-- Python round(x, 2) on an exact rational. -/
def round2 (q : ℚ) : ℚ :=
  (roundHalfEven (q * 100) : ℚ) / 100

/-- Availability record of _check_availability, with the formatted detail
strings reduced to the one numeric component they carry (days until
project_end_date on the TRANSITIONING branch). On that branch the source
computes (employee.project_end_date - date.today()).days, which raises a
TypeError when project_end_date is None; the Option models that. -/
structure AvailStatus where
  status : String
  days_until : Option ℤ
  deriving DecidableEq, Repr

/-- _check_availability. -/
def checkAvailability (today : ℤ) (e : Employee) : Option AvailStatus :=
  if e.current_status = "BENCH" then some ⟨"IMMEDIATELY_AVAILABLE", none⟩
  else if e.current_status = "NOTICE_PERIOD" then some ⟨"AVAILABLE_SOON", none⟩
  else if e.current_status = "TRANSITIONING" then
    e.project_end_date.map (fun d => ⟨"AVAILABLE_SOON", some (d - today)⟩)
  else some ⟨"NOT_AVAILABLE", none⟩

/-- Matched-skill entry recorded by _calculate_employee_requisition_match
(the constant status "MATCHED" field is omitted). -/
structure SkillMatchRow where
  skill : String
  required_experience : ℚ
  employee_experience : ℚ
  match_score : ℚ
  deriving DecidableEq, Repr

/-- Missing-skill entry recorded by _calculate_employee_requisition_match. -/
structure MissingSkillRow where
  skill : String
  required_experience : ℚ
  required_level : String
  is_mandatory : Bool
  deriving DecidableEq, Repr

/-- Match result of _calculate_employee_requisition_match (start_date kept
as a day count instead of an ISO string). -/
structure MatchResult where
  requisition_id : String
  project_name : String
  role_title : String
  location : String
  start_date : ℤ
  total_score : ℚ
  skill_matches : List SkillMatchRow
  missing_skills : List MissingSkillRow
  availability_status : AvailStatus
  deriving DecidableEq, Repr

/-- Loop body of _calculate_employee_requisition_match: walks the required
skills accumulating the weighted total and the matched and missing rows, in
iteration order. The Python loop adds the contributions left to right; here
each contribution is added in front of the total of the remaining skills,
which is the same rational by commutativity. -/
def reqSkillRows (skills : List EmpSkill) :
    List ReqSkill → Option (ℚ × List SkillMatchRow × List MissingSkillRow)
  | [] => some (0, [], [])
  | r :: rest => do
    let (t, rows, miss) ← reqSkillRows skills rest
    match findEmpSkill skills r.skill_name with
    | some es => do
      let sc ← calcSkillMatchScore es r.toReqSkillCore
      some (sc * (if r.is_mandatory then 2 else 1) + t,
        ⟨r.skill_name, r.min_experience, es.experience_years, sc⟩ :: rows, miss)
    | none =>
      some (t, rows,
        ⟨r.skill_name, r.min_experience, r.required_level, r.is_mandatory⟩ :: miss)

/-- Normalization denominator of _calculate_employee_requisition_match:
sum(2 for mandatory skills) + sum(1 for optional skills). -/
def maxScore (rs : List ReqSkill) : ℚ :=
  2 * ((rs.filter (fun s => s.is_mandatory)).length : ℚ)
    + 1 * ((rs.filter (fun s => !s.is_mandatory)).length : ℚ)

/-- _calculate_employee_requisition_match. -/
def calcEmployeeRequisitionMatch (today : ℤ) (e : Employee) (req : Requisition) :
    Option MatchResult := do
  let (total, rows, miss) ← reqSkillRows e.skills req.required_skills
  let avail ← checkAvailability today e
  let normalized := if maxScore req.required_skills > 0
    then total / maxScore req.required_skills * 100 else 0
  some ⟨req.requisition_id, req.project_name, req.role_title, req.location,
    req.start_date, round2 normalized, rows, miss, avail⟩

/-- Matched-skill entry recorded by _calculate_employee_skill_match. -/
structure MatchedSkillRow where
  skill : String
  required_experience : ℚ
  employee_experience : ℚ
  employee_level : String
  match_score : ℚ
  deriving DecidableEq, Repr

/-- Missing-skill entry recorded by _calculate_employee_skill_match
(no mandatory flag). -/
structure MissingReqRow where
  skill : String
  required_experience : ℚ
  required_level : String
  deriving DecidableEq, Repr

/-- Match result of _calculate_employee_skill_match. -/
structure EmpMatchResult where
  employee_id : String
  employee_name : String
  current_status : String
  location : String
  performance_rating : ℚ
  total_score : ℚ
  matched_skills : List MatchedSkillRow
  missing_skills : List MissingReqRow
  bench_days : ℤ
  deriving DecidableEq, Repr

/-- Loop body of _calculate_employee_skill_match: like reqSkillRows but
with no mandatory weighting. -/
def skillReqRows (skills : List EmpSkill) :
    List ReqSkillCore → Option (ℚ × List MatchedSkillRow × List MissingReqRow)
  | [] => some (0, [], [])
  | r :: rest => do
    let (t, rows, miss) ← skillReqRows skills rest
    match findEmpSkill skills r.skill_name with
    | some es => do
      let sc ← calcSkillMatchScore es r
      some (sc + t,
        ⟨r.skill_name, r.min_experience, es.experience_years,
          es.proficiency_level, sc⟩ :: rows, miss)
    | none =>
      some (t, rows, ⟨r.skill_name, r.min_experience, r.required_level⟩ :: miss)

/-- _calculate_bench_days. -/
def calcBenchDays (today : ℤ) (e : Employee) : ℤ :=
  match e.bench_start_date with
  | some d => today - d
  | none => 0

/-- _calculate_employee_skill_match. -/
def calcEmployeeSkillMatch (today : ℤ) (e : Employee) (reqs : List ReqSkillCore) :
    Option EmpMatchResult := do
  let (total, rows, miss) ← skillReqRows e.skills reqs
  let normalized := if reqs.isEmpty then 0 else total / (reqs.length : ℚ) * 100
  some ⟨e.employee_id, e.name, e.current_status, e.location, e.performance_rating,
    round2 normalized, rows, miss,
    if e.bench_start_date.isSome then calcBenchDays today e else 0⟩

/-- Contiguous-subsequence test on character lists, modelling the Python
substring operator needle in hay. -/
def containsSeq (needle : List Char) : List Char → Bool
  | [] => needle.isEmpty
  | c :: t => needle.isPrefixOf (c :: t) || containsSeq needle t

/-- Case-insensitive keyword detection: kw in query.lower() for an
already-lowercase keyword kw. -/
def containsKw (query : String) (kw : String) : Bool :=
  containsSeq kw.data (lowerChars query.data)

/-- _parse_skill_requirements: the dicts appended for java, react (only
with the digit 2 somewhere in the raw query), angular (only with the
digit 3), and sql, in source order. -/
def parseSkillRequirements (query : String) : List ReqSkillCore :=
  (if containsKw query "java" then [⟨"Java", 5, "ADVANCED"⟩] else [])
    ++ (if containsKw query "react" && containsSeq "2".data query.data
        then [⟨"React", 2, "INTERMEDIATE"⟩] else [])
    ++ (if containsKw query "angular" && containsSeq "3".data query.data
        then [⟨"Angular", 3, "ADVANCED"⟩] else [])
    ++ (if containsKw query "sql" then [⟨"SQL", 1, "INTERMEDIATE"⟩] else [])

/-- Python list.sort(key=lambda x: x["total_score"], reverse=True): a
stable sort placing higher scores first. -/
def sortByScoreDesc {α : Type} (score : α → ℚ) (l : List α) : List α :=
  l.mergeSort (fun a b => decide (score b ≤ score a))

/-- Loop of find_positions_for_employee: every OPEN requisition is scored
and the result kept only when total_score > 0. -/
def computeOpenMatches (today : ℤ) (e : Employee) :
    List Requisition → Option (List MatchResult)
  | [] => some []
  | req :: rest =>
    if req.status = "OPEN" then do
      let m ← calcEmployeeRequisitionMatch today e req
      let ms ← computeOpenMatches today e rest
      some (if m.total_score > 0 then m :: ms else ms)
    else computeOpenMatches today e rest

/-- Reference list for claim C10: the same walk as computeOpenMatches with
the total_score > 0 filter removed, so that the filtering behaviour can be
stated as a theorem. -/
def allOpenMatches (today : ℤ) (e : Employee) :
    List Requisition → Option (List MatchResult)
  | [] => some []
  | req :: rest =>
    if req.status = "OPEN" then do
      let m ← calcEmployeeRequisitionMatch today e req
      let ms ← allOpenMatches today e rest
      some (m :: ms)
    else allOpenMatches today e rest

/-- Response of find_positions_for_employee (the recommendations payload,
derived output of the Recommendation Engine, is omitted; the source key
"matches" is rendered matchesList because matches is reserved in Lean). -/
structure PositionsOut where
  employee : String
  current_status : String
  total_matches : ℕ
  matchesList : List MatchResult
  deriving DecidableEq, Repr

/-- find_positions_for_employee: score the OPEN requisitions, drop zero
scores, sort by total_score descending, report the count and the top 5. -/
def findPositionsForEmployee (today : ℤ) (e : Employee)
    (requisitions : List Requisition) : Option PositionsOut := do
  let ms ← computeOpenMatches today e requisitions
  let sorted := sortByScoreDesc (fun m => m.total_score) ms
  some ⟨e.name, e.current_status, sorted.length, sorted.take 5⟩

/-- Statuses eligible for the manager search in find_employees_by_skills. -/
def availableStatuses : List String :=
  ["BENCH", "TRANSITIONING", "NOTICE_PERIOD"]

/-- Loop of find_employees_by_skills: employees outside the eligible
statuses are skipped, the rest are scored, and results kept only when
total_score > 0. -/
def computeEmployeeMatches (today : ℤ) (reqs : List ReqSkillCore) :
    List Employee → Option (List EmpMatchResult)
  | [] => some []
  | e :: rest =>
    if availableStatuses.contains e.current_status then do
      let m ← calcEmployeeSkillMatch today e reqs
      let ms ← computeEmployeeMatches today reqs rest
      some (if m.total_score > 0 then m :: ms else ms)
    else computeEmployeeMatches today reqs rest

/-- Reference list for claim C10: computeEmployeeMatches without the
total_score > 0 filter. -/
def allEmployeeMatches (today : ℤ) (reqs : List ReqSkillCore) :
    List Employee → Option (List EmpMatchResult)
  | [] => some []
  | e :: rest =>
    if availableStatuses.contains e.current_status then do
      let m ← calcEmployeeSkillMatch today e reqs
      let ms ← allEmployeeMatches today reqs rest
      some (m :: ms)
    else allEmployeeMatches today reqs rest

/-- Successful response of find_employees_by_skills (the summary payload
is omitted). -/
structure EmployeesSearchOut where
  search_criteria : List ReqSkillCore
  total_employees_found : ℕ
  matchesList : List EmpMatchResult
  deriving DecidableEq, Repr

/-- Response of find_employees_by_skills: either the error payload for an
empty parsed requirement list, or the match report. -/
inductive EmployeesResponse where
  | failed (msg : String)
  | ok (out : EmployeesSearchOut)
  deriving DecidableEq, Repr

/-- find_employees_by_skills. -/
def findEmployeesBySkills (today : ℤ) (employees : List Employee)
    (query : String) : Option EmployeesResponse :=
  let reqs := parseSkillRequirements query
  if reqs.isEmpty then
    some (EmployeesResponse.failed "Please specify skill requirements")
  else do
    let ms ← computeEmployeeMatches today reqs employees
    let sorted := sortByScoreDesc (fun m => m.total_score) ms
    some (EmployeesResponse.ok ⟨reqs, sorted.length, sorted⟩)

/-- Weighted per-skill sum of claim C2: over the required skills of a
requisition, the per-skill score for skills the employee has (weighted 2
when mandatory, else 1) and 0 for absent skills. -/
def specWeightedSum (skills : List EmpSkill) (rs : List ReqSkill) : ℚ :=
  (rs.map (fun r =>
    match findEmpSkill skills r.skill_name with
    | some es => calcSkillMatchScoreVal es r.toReqSkillCore
        * (if r.is_mandatory then 2 else 1)
    | none => 0)).sum

/-- Unweighted per-skill sum of claim C6. -/
def specPlainSum (skills : List EmpSkill) (rs : List ReqSkillCore) : ℚ :=
  (rs.map (fun r =>
    match findEmpSkill skills r.skill_name with
    | some es => calcSkillMatchScoreVal es r
    | none => 0)).sum

/-- Proficiency levels in rising order, for the monotonicity claim. -/
def levelNames : List String :=
  ["BEGINNER", "INTERMEDIATE", "ADVANCED", "EXPERT"]

/-- Position of a level in the rising order. -/
def levelRank (lvl : String) : ℕ :=
  levelNames.indexOf lvl

/-- Mock employee EMP001 of _load_mock_employees (dates as day counts:
2024-04-15 is stored as day 836). -/
def emp001 : Employee where
  employee_id := "EMP001"
  name := "Raj Sharma"
  email := "raj.sharma@zensar.com"
  current_status := "BENCH"
  current_project := none
  project_end_date := none
  bench_start_date := some 836
  skills :=
    [⟨"Java", "Backend", 6, "EXPERT"⟩,
     ⟨"Spring Boot", "Backend", 5, "ADVANCED"⟩,
     ⟨"React", "Frontend", 2, "INTERMEDIATE"⟩,
     ⟨"SQL", "Database", 4, "ADVANCED"⟩,
     ⟨"Angular", "Frontend", 1, "BEGINNER"⟩]
  performance_rating := 21 / 5
  location := "Pune"

/-- Mock requisition REQ001 of _load_mock_requisitions (2024-06-01 stored
as day 883). -/
def req001 : Requisition where
  requisition_id := "REQ001"
  project_name := "Digital Banking Platform"
  role_title := "Full Stack Developer"
  status := "OPEN"
  start_date := 883
  required_skills :=
    [⟨⟨"Java", 5, "ADVANCED"⟩, true⟩,
     ⟨⟨"Spring Boot", 3, "ADVANCED"⟩, true⟩,
     ⟨⟨"React", 2, "INTERMEDIATE"⟩, true⟩,
     ⟨⟨"SQL", 3, "ADVANCED"⟩, false⟩]
  location := "Pune"
  experience_level := "Senior"
  hiring_type := "INTERNAL"

/-- Employee-side level score as the claim words it: BEGINNER 10,
INTERMEDIATE 20, ADVANCED 30, EXPERT 30, any unrecognized employee
level 0. -/
def specEmpLevelScore (lvl : String) : ℚ :=
  if lvl = "BEGINNER" then 10
  else if lvl = "INTERMEDIATE" then 20
  else if lvl = "ADVANCED" then 30
  else if lvl = "EXPERT" then 30
  else 0

/-- Required-side level score as the claim words it: same table, any
unrecognized required level 15. -/
def specReqLevelScore (lvl : String) : ℚ :=
  if lvl = "BEGINNER" then 10
  else if lvl = "INTERMEDIATE" then 20
  else if lvl = "ADVANCED" then 30
  else if lvl = "EXPERT" then 30
  else 15

/-- Per-skill score exactly as claim C1 words it:
(min(min(experience_years / min_experience, 2.0) * 35, 70)
 + min(levelScore emp, levelScore req)) / 100. -/
def specSkillScore (e : EmpSkill) (r : ReqSkillCore) : ℚ :=
  (min (min (e.experience_years / r.min_experience) 2 * 35) 70
    + min (specEmpLevelScore e.proficiency_level)
        (specReqLevelScore r.required_level)) / 100

lemma specEmpLevelScore_eq (lvl : String) :
    specEmpLevelScore lvl = (levelScores lvl).getD 0 := by
  unfold specEmpLevelScore levelScores
  split_ifs <;> rfl

lemma specReqLevelScore_eq (lvl : String) :
    specReqLevelScore lvl = (levelScores lvl).getD 15 := by
  unfold specReqLevelScore levelScores
  split_ifs <;> rfl

lemma specEmpLevelScore_bounds (lvl : String) :
    0 ≤ specEmpLevelScore lvl ∧ specEmpLevelScore lvl ≤ 30 := by
  unfold specEmpLevelScore
  split_ifs <;> norm_num

lemma specReqLevelScore_nonneg (lvl : String) :
    0 ≤ specReqLevelScore lvl := by
  unfold specReqLevelScore
  split_ifs <;> norm_num

/-- C1: for min_experience > 0 (and a skill record with nonnegative
experience, as the data model guarantees), _calculate_skill_match_score
returns exactly the claimed formula
(min(min(exp / min_exp, 2.0) * 35, 70) + min(levelScore emp, levelScore req)) / 100
with the claimed level tables, and the value lies in [0, 1]. -/
theorem skill_score_matches_spec_formula (e : EmpSkill) (r : ReqSkillCore)
    (hmin : 0 < r.min_experience) (hexp : 0 ≤ e.experience_years) :
    calcSkillMatchScore e r = some (specSkillScore e r) ∧
    0 ≤ specSkillScore e r ∧ specSkillScore e r ≤ 1 := by
  have hform : calcSkillMatchScore e r = some (specSkillScore e r) := by
    unfold calcSkillMatchScore calcSkillMatchScoreVal specSkillScore
    rw [if_neg hmin.ne', specEmpLevelScore_eq, specReqLevelScore_eq]
  refine ⟨hform, ?_, ?_⟩
  · unfold specSkillScore
    have hratio : (0 : ℚ) ≤ e.experience_years / r.min_experience :=
      div_nonneg hexp hmin.le
    have h1 : (0 : ℚ) ≤ min (min (e.experience_years / r.min_experience) 2 * 35) 70 := by
      have : (0 : ℚ) ≤ min (e.experience_years / r.min_experience) 2 * 35 := by
        have := le_min hratio (by norm_num : (0 : ℚ) ≤ 2)
        nlinarith
      exact le_min this (by norm_num)
    have h2 : (0 : ℚ) ≤ min (specEmpLevelScore e.proficiency_level)
        (specReqLevelScore r.required_level) :=
      le_min (specEmpLevelScore_bounds e.proficiency_level).1
        (specReqLevelScore_nonneg r.required_level)
    positivity
  · unfold specSkillScore
    have h1 : min (min (e.experience_years / r.min_experience) 2 * 35) 70 ≤ 70 :=
      min_le_right _ _
    have h2 : min (specEmpLevelScore e.proficiency_level)
        (specReqLevelScore r.required_level) ≤ 30 :=
      le_trans (min_le_left _ _) (specEmpLevelScore_bounds e.proficiency_level).2
    linarith

/-- Witness for C1 at the concrete pair Java 6y EXPERT against Java
min 5y ADVANCED. -/
theorem skill_score_matches_spec_formula_witness :
    (0 : ℚ) < 5 ∧ (0 : ℚ) ≤ 6 ∧
    (calcSkillMatchScore ⟨"Java", "Backend", 6, "EXPERT"⟩ ⟨"Java", 5, "ADVANCED"⟩
        = some (specSkillScore ⟨"Java", "Backend", 6, "EXPERT"⟩ ⟨"Java", 5, "ADVANCED"⟩) ∧
      0 ≤ specSkillScore ⟨"Java", "Backend", 6, "EXPERT"⟩ ⟨"Java", 5, "ADVANCED"⟩ ∧
      specSkillScore ⟨"Java", "Backend", 6, "EXPERT"⟩ ⟨"Java", 5, "ADVANCED"⟩ ≤ 1) :=
  ⟨by norm_num, by norm_num,
    skill_score_matches_spec_formula _ _ (by norm_num) (by norm_num)⟩

/-- C4 evaluation: at a required skill with min_experience = 0 the body of
_calculate_skill_match_score divides by zero and raises ZeroDivisionError
(modelled as none); there is no guard returning the full-credit score the
claim describes. -/
theorem skill_score_zero_min_experience_raises :
    calcSkillMatchScore ⟨"Java", "Backend", 5, "ADVANCED"⟩ ⟨"Java", 0, "ADVANCED"⟩
      = none := rfl

/-- C5 counterexample: Java 2y EXPERT against Java min 1y BEGINNER
satisfies the hypotheses of the claim (experience at least twice the
minimum, employee level at or above the required level), yet the score is
0.8 rather than 1.0, because the proficiency component is capped by the
required-level score 10. -/
theorem skill_score_double_experience_counterexample :
    (2 : ℚ) * 1 ≤ 2 ∧ levelRank "BEGINNER" ≤ levelRank "EXPERT" ∧
    calcSkillMatchScore ⟨"Java", "Backend", 2, "EXPERT"⟩ ⟨"Java", 1, "BEGINNER"⟩
      = some (4 / 5) ∧ (4 / 5 : ℚ) ≠ 1 :=
  ⟨by norm_num, by decide,
    by simp +decide [calcSkillMatchScore, calcSkillMatchScoreVal, levelScores]
       norm_num [min_def],
    by norm_num⟩

/-- C5 amended: with min_experience positive, experience at least twice the
minimum, and the employee level at or above the required level in the
rising order, the score is exactly 1.0 under the additional condition the
counterexample forces: the required level is ADVANCED or EXPERT. -/
theorem skill_score_full_credit (e : EmpSkill) (r : ReqSkillCore)
    (hmin : 0 < r.min_experience)
    (hexp : 2 * r.min_experience ≤ e.experience_years)
    (hemp : e.proficiency_level ∈ levelNames)
    (hrank : levelRank r.required_level ≤ levelRank e.proficiency_level)
    (hreq : r.required_level = "ADVANCED" ∨ r.required_level = "EXPERT") :
    calcSkillMatchScore e r = some 1 := by
  have h2 : (2 : ℚ) ≤ e.experience_years / r.min_experience := by
    rw [le_div_iff₀ hmin]
    linarith
  simp only [levelNames, List.mem_cons, List.not_mem_nil, or_false] at hemp
  unfold calcSkillMatchScore calcSkillMatchScoreVal
  rw [if_neg hmin.ne']
  rcases hreq with hreq | hreq <;> rw [hreq] at hrank ⊢ <;>
    rcases hemp with h | h | h | h <;> rw [h] at hrank ⊢ <;>
      first
        | (exfalso; revert hrank; decide)
        | (rw [min_eq_right h2]; simp +decide [levelScores]; norm_num)

/-- Witness for the amended C5 at Java 4y ADVANCED against Java min 2y
ADVANCED. -/
theorem skill_score_full_credit_witness :
    (0 : ℚ) < 2 ∧ (2 : ℚ) * 2 ≤ 4 ∧ "ADVANCED" ∈ levelNames ∧
    levelRank "ADVANCED" ≤ levelRank "ADVANCED" ∧
    calcSkillMatchScore ⟨"Java", "Backend", 4, "ADVANCED"⟩ ⟨"Java", 2, "ADVANCED"⟩
      = some 1 :=
  ⟨by norm_num, by norm_num, by decide, by decide,
    skill_score_full_credit _ _ (by norm_num) (by norm_num) (by decide) (by decide)
      (Or.inl rfl)⟩

/-- C3 counterexample: the employee EMP001 of the mock data (whose skills
include Java 6y EXPERT, Spring Boot 5y ADVANCED, React 2y INTERMEDIATE,
SQL 4y ADVANCED) matched against REQ001 scores 72.48, not the 100.00 the
claim states: Java 6y against min 5 earns 42 of 70 experience points and
Spring Boot and SQL also fall short of full credit. -/
theorem emp001_req001_not_full_score :
    (calcEmployeeRequisitionMatch 0 emp001 req001).map (fun r => r.total_score)
      = some (1812 / 25) ∧ (1812 / 25 : ℚ) ≠ 100 :=
  ⟨by
    simp +decide [calcEmployeeRequisitionMatch, emp001, req001, reqSkillRows, findEmpSkill,
      ciEq, lowerChars, calcSkillMatchScore, calcSkillMatchScoreVal, levelScores, maxScore,
      checkAvailability, round2, roundHalfEven, List.find?, min_def]
    norm_num [Int.fract], by norm_num⟩

/-- C3 amended: EMP001 against REQ001 does match all four required skills
with an empty missing list, but the total score is 72.48 (1812/25), not
100.00. -/
theorem emp001_req001_match_detail :
    (calcEmployeeRequisitionMatch 0 emp001 req001).map
        (fun r => (r.skill_matches.map (fun m => m.skill), r.missing_skills,
          r.total_score))
      = some (["Java", "Spring Boot", "React", "SQL"], [], 1812 / 25) := by
  simp +decide [calcEmployeeRequisitionMatch, emp001, req001, reqSkillRows, findEmpSkill,
    ciEq, lowerChars, calcSkillMatchScore, calcSkillMatchScoreVal, levelScores, maxScore,
    checkAvailability, round2, roundHalfEven, List.find?, min_def]
  norm_num [Int.fract]

lemma round2_zero : round2 0 = 0 := by
  norm_num [round2, roundHalfEven]

lemma maxScore_pos (rs : List ReqSkill) (h : rs ≠ []) : 0 < maxScore rs := by
  cases rs with
  | nil => exact absurd rfl h
  | cons r rest =>
    unfold maxScore
    by_cases hm : r.is_mandatory <;> simp [List.filter_cons, hm] <;> positivity

lemma reqSkillRows_total (skills : List EmpSkill) (rs : List ReqSkill)
    (h : ∀ r ∈ rs, r.min_experience ≠ 0) :
    ∃ rows miss, reqSkillRows skills rs = some (specWeightedSum skills rs, rows, miss) := by
  induction rs with
  | nil => exact ⟨[], [], rfl⟩
  | cons r rest ih =>
    obtain ⟨rows, miss, hrest⟩ := ih fun x hx => h x (List.mem_cons_of_mem _ hx)
    have hr : r.min_experience ≠ 0 := h r (List.mem_cons_self _ _)
    cases hfind : findEmpSkill skills r.skill_name with
    | none =>
      refine ⟨rows,
        ⟨r.skill_name, r.min_experience, r.required_level, r.is_mandatory⟩ :: miss, ?_⟩
      simp [reqSkillRows, hrest, hfind, specWeightedSum]
    | some es =>
      refine ⟨⟨r.skill_name, r.min_experience, es.experience_years,
        calcSkillMatchScoreVal es r.toReqSkillCore⟩ :: rows, miss, ?_⟩
      simp [reqSkillRows, hrest, hfind, calcSkillMatchScore, hr, specWeightedSum]

lemma checkAvailability_isSome (today : ℤ) (e : Employee)
    (h : e.current_status = "TRANSITIONING" → e.project_end_date.isSome) :
    ∃ a, checkAvailability today e = some a := by
  unfold checkAvailability
  split_ifs with h1 h2 h3
  · exact ⟨_, rfl⟩
  · exact ⟨_, rfl⟩
  · cases hp : e.project_end_date with
    | none => rw [hp] at h; simp [h3] at h
    | some d => exact ⟨⟨"AVAILABLE_SOON", some (d - today)⟩, by simp [hp]⟩
  · exact ⟨_, rfl⟩

/-- C2: with every required minimum experience positive (and an employee
record satisfying the data-model invariant that a TRANSITIONING employee
has a project end date), _calculate_employee_requisition_match returns
total_score = round2 of (sum over required skills of the per-skill score,
weighted 2 when mandatory and 1 otherwise, with absent skills contributing
0) divided by (2 x mandatory count + 1 x optional count) times 100; a
requisition with no required skills yields total_score = 0 and no
exception. -/
theorem requisition_match_total_formula (today : ℤ) (e : Employee) (req : Requisition)
    (hmin : ∀ r ∈ req.required_skills, 0 < r.min_experience)
    (havail : e.current_status = "TRANSITIONING" → e.project_end_date.isSome) :
    ∃ res, calcEmployeeRequisitionMatch today e req = some res ∧
      (req.required_skills ≠ [] →
        res.total_score = round2 (specWeightedSum e.skills req.required_skills
          / maxScore req.required_skills * 100)) ∧
      (req.required_skills = [] → res.total_score = 0) := by
  obtain ⟨rows, miss, hrows⟩ := reqSkillRows_total e.skills req.required_skills
    fun r hr => (hmin r hr).ne'
  obtain ⟨a, ha⟩ := checkAvailability_isSome today e havail
  refine ⟨⟨req.requisition_id, req.project_name, req.role_title, req.location,
    req.start_date, round2 (if maxScore req.required_skills > 0
      then specWeightedSum e.skills req.required_skills / maxScore req.required_skills * 100
      else 0), rows, miss, a⟩, ?_, ?_, ?_⟩
  · simp [calcEmployeeRequisitionMatch, hrows, ha]
  · intro hne
    show round2 _ = _
    rw [if_pos (maxScore_pos _ hne)]
  · intro hnil
    show round2 _ = _
    rw [if_neg (by simp [hnil, maxScore])]
    exact round2_zero

/-- Witness for C2 at EMP001 against REQ001. -/
theorem requisition_match_total_formula_witness :
    (∀ r ∈ req001.required_skills, 0 < r.min_experience) ∧
    (emp001.current_status = "TRANSITIONING" → emp001.project_end_date.isSome) ∧
    (∃ res, calcEmployeeRequisitionMatch 0 emp001 req001 = some res ∧
      (req001.required_skills ≠ [] →
        res.total_score = round2 (specWeightedSum emp001.skills req001.required_skills
          / maxScore req001.required_skills * 100)) ∧
      (req001.required_skills = [] → res.total_score = 0)) := by
  have h1 : ∀ r ∈ req001.required_skills, 0 < r.min_experience := by
    intro r hr
    fin_cases hr <;> norm_num [req001]
  have h2 : emp001.current_status = "TRANSITIONING" → emp001.project_end_date.isSome :=
    fun h => absurd h (by decide)
  exact ⟨h1, h2, requisition_match_total_formula 0 emp001 req001 h1 h2⟩

lemma skillReqRows_total (skills : List EmpSkill) (rs : List ReqSkillCore)
    (h : ∀ r ∈ rs, r.min_experience ≠ 0) :
    ∃ rows miss, skillReqRows skills rs = some (specPlainSum skills rs, rows, miss) := by
  induction rs with
  | nil => exact ⟨[], [], rfl⟩
  | cons r rest ih =>
    obtain ⟨rows, miss, hrest⟩ := ih fun x hx => h x (List.mem_cons_of_mem _ hx)
    have hr : r.min_experience ≠ 0 := h r (List.mem_cons_self _ _)
    cases hfind : findEmpSkill skills r.skill_name with
    | none =>
      refine ⟨rows, ⟨r.skill_name, r.min_experience, r.required_level⟩ :: miss, ?_⟩
      simp [skillReqRows, hrest, hfind, specPlainSum]
    | some es =>
      refine ⟨⟨r.skill_name, r.min_experience, es.experience_years,
        es.proficiency_level, calcSkillMatchScoreVal es r⟩ :: rows, miss, ?_⟩
      simp [skillReqRows, hrest, hfind, calcSkillMatchScore, hr, specPlainSum]

/-- C6: with every required minimum experience positive,
_calculate_employee_skill_match applies no mandatory weighting:
total_score = round2 of (unweighted sum of the per-skill scores of matched
requirements, absent skills contributing 0) divided by the number of
requirements times 100; an empty requirement list yields 0; and bench_days
is (today - bench_start_date) when bench_start_date is set, else 0. -/
theorem skill_set_match_total_formula (today : ℤ) (e : Employee)
    (reqs : List ReqSkillCore)
    (hmin : ∀ r ∈ reqs, 0 < r.min_experience) :
    ∃ res, calcEmployeeSkillMatch today e reqs = some res ∧
      (reqs ≠ [] →
        res.total_score = round2 (specPlainSum e.skills reqs / (reqs.length : ℚ) * 100)) ∧
      (reqs = [] → res.total_score = 0) ∧
      res.bench_days = (match e.bench_start_date with
        | some d => today - d
        | none => 0) := by
  obtain ⟨rows, miss, hrows⟩ := skillReqRows_total e.skills reqs
    fun r hr => (hmin r hr).ne'
  refine ⟨⟨e.employee_id, e.name, e.current_status, e.location, e.performance_rating,
    round2 (if reqs.isEmpty then 0
      else specPlainSum e.skills reqs / (reqs.length : ℚ) * 100), rows, miss,
    if e.bench_start_date.isSome then calcBenchDays today e else 0⟩, ?_, ?_, ?_, ?_⟩
  · simp [calcEmployeeSkillMatch, hrows]
  · intro hne
    show round2 _ = _
    rw [if_neg (by simpa [List.isEmpty_iff] using hne)]
  · intro hnil
    show round2 _ = _
    rw [if_pos (by simp [hnil])]
    exact round2_zero
  · show (if e.bench_start_date.isSome then calcBenchDays today e else 0) = _
    cases hb : e.bench_start_date <;> simp [calcBenchDays, hb]

/-- Witness for C6 at EMP001 against the single requirement Java 5y
ADVANCED. -/
theorem skill_set_match_total_formula_witness :
    (∀ r ∈ [(⟨"Java", 5, "ADVANCED"⟩ : ReqSkillCore)], 0 < r.min_experience) ∧
    (∃ res, calcEmployeeSkillMatch 7 emp001 [⟨"Java", 5, "ADVANCED"⟩] = some res ∧
      ([(⟨"Java", 5, "ADVANCED"⟩ : ReqSkillCore)] ≠ [] →
        res.total_score = round2 (specPlainSum emp001.skills [⟨"Java", 5, "ADVANCED"⟩]
          / (([(⟨"Java", 5, "ADVANCED"⟩ : ReqSkillCore)].length : ℕ) : ℚ) * 100)) ∧
      ([(⟨"Java", 5, "ADVANCED"⟩ : ReqSkillCore)] = [] → res.total_score = 0) ∧
      res.bench_days = (match emp001.bench_start_date with
        | some d => 7 - d
        | none => 0)) := by
  have h1 : ∀ r ∈ [(⟨"Java", 5, "ADVANCED"⟩ : ReqSkillCore)], 0 < r.min_experience := by
    intro r hr
    fin_cases hr
    norm_num
  exact ⟨h1, skill_set_match_total_formula 7 emp001 [⟨"Java", 5, "ADVANCED"⟩] h1⟩

/-- C7: for a fixed proficiency level and positive minimum experience the
score of _calculate_skill_match_score is non-decreasing in
experience_years, and for fixed experience it is non-decreasing as the
employee level rises through BEGINNER, INTERMEDIATE, ADVANCED, EXPERT. -/
theorem skill_score_monotone :
    (∀ (nm cat lvl : String) (r : ReqSkillCore) (e1 e2 : ℚ),
      0 < r.min_experience → e1 ≤ e2 →
      ∃ s1 s2, calcSkillMatchScore ⟨nm, cat, e1, lvl⟩ r = some s1 ∧
        calcSkillMatchScore ⟨nm, cat, e2, lvl⟩ r = some s2 ∧ s1 ≤ s2) ∧
    (∀ (nm cat : String) (ey : ℚ) (r : ReqSkillCore) (l1 l2 : String),
      0 < r.min_experience → l1 ∈ levelNames → l2 ∈ levelNames →
      levelRank l1 ≤ levelRank l2 →
      ∃ s1 s2, calcSkillMatchScore ⟨nm, cat, ey, l1⟩ r = some s1 ∧
        calcSkillMatchScore ⟨nm, cat, ey, l2⟩ r = some s2 ∧ s1 ≤ s2) := by
  constructor
  · intro nm cat lvl r e1 e2 hmin hle
    refine ⟨calcSkillMatchScoreVal ⟨nm, cat, e1, lvl⟩ r,
      calcSkillMatchScoreVal ⟨nm, cat, e2, lvl⟩ r,
      by simp [calcSkillMatchScore, hmin.ne'],
      by simp [calcSkillMatchScore, hmin.ne'], ?_⟩
    unfold calcSkillMatchScoreVal
    have hdiv : e1 / r.min_experience ≤ e2 / r.min_experience := by gcongr
    have hx : min (min (e1 / r.min_experience) 2 * 35) 70
        ≤ min (min (e2 / r.min_experience) 2 * 35) 70 := by
      refine min_le_min ?_ le_rfl
      have := min_le_min hdiv (le_refl (2 : ℚ))
      nlinarith
    gcongr
  · intro nm cat ey r l1 l2 hmin h1 h2 hrank
    refine ⟨calcSkillMatchScoreVal ⟨nm, cat, ey, l1⟩ r,
      calcSkillMatchScoreVal ⟨nm, cat, ey, l2⟩ r,
      by simp [calcSkillMatchScore, hmin.ne'],
      by simp [calcSkillMatchScore, hmin.ne'], ?_⟩
    unfold calcSkillMatchScoreVal
    have hmono : (levelScores l1).getD 0 ≤ (levelScores l2).getD 0 := by
      simp only [levelNames, List.mem_cons, List.not_mem_nil, or_false] at h1 h2
      rcases h1 with h | h | h | h <;> rcases h2 with h' | h' | h' | h' <;>
        subst h <;> subst h' <;>
          first
            | (exfalso; revert hrank; decide)
            | (simp +decide [levelScores]; try norm_num)
    have hx : min ((levelScores l1).getD 0) ((levelScores r.required_level).getD 15)
        ≤ min ((levelScores l2).getD 0) ((levelScores r.required_level).getD 15) :=
      min_le_min hmono le_rfl
    gcongr

/-- Witness for C7 at Java experience 1 against 3 (ADVANCED level) and
level BEGINNER against EXPERT (experience 1), both against the
requirement Java min 2 ADVANCED. -/
theorem skill_score_monotone_witness :
    0 < (2 : ℚ) ∧ (1 : ℚ) ≤ 3 ∧ "BEGINNER" ∈ levelNames ∧ "EXPERT" ∈ levelNames ∧
    levelRank "BEGINNER" ≤ levelRank "EXPERT" ∧
    (∃ s1 s2, calcSkillMatchScore ⟨"Java", "Backend", 1, "ADVANCED"⟩
          ⟨"Java", 2, "ADVANCED"⟩ = some s1 ∧
      calcSkillMatchScore ⟨"Java", "Backend", 3, "ADVANCED"⟩
          ⟨"Java", 2, "ADVANCED"⟩ = some s2 ∧ s1 ≤ s2) ∧
    (∃ s1 s2, calcSkillMatchScore ⟨"Java", "Backend", 1, "BEGINNER"⟩
          ⟨"Java", 2, "ADVANCED"⟩ = some s1 ∧
      calcSkillMatchScore ⟨"Java", "Backend", 1, "EXPERT"⟩
          ⟨"Java", 2, "ADVANCED"⟩ = some s2 ∧ s1 ≤ s2) := by
  refine ⟨by norm_num, by norm_num, by decide, by decide, by decide, ?_, ?_⟩
  · exact skill_score_monotone.1 "Java" "Backend" "ADVANCED"
      ⟨"Java", 2, "ADVANCED"⟩ 1 3 (by norm_num) (by norm_num)
  · exact skill_score_monotone.2 "Java" "Backend" 1
      ⟨"Java", 2, "ADVANCED"⟩ "BEGINNER" "EXPERT" (by norm_num) (by decide)
      (by decide) (by decide)

/-- C9 counterexample: the query "python" contains the keyword python
(claim C9 then demands an emitted requirement), yet
_parse_skill_requirements emits nothing: the function only handles java,
react, angular and sql. -/
theorem parse_requirements_python_counterexample :
    containsKw "python" "python" = true ∧
    parseSkillRequirements "python" = [] :=
  ⟨by decide, by decide⟩

/-- C9 amended: the extractor emits a requirement exactly for java (Java
5y ADVANCED), for react together with the digit 2 somewhere in the raw
text (React 2y INTERMEDIATE), for angular together with the digit 3
(Angular 3y ADVANCED), and for sql (SQL 1y INTERMEDIATE), each keyword
found by case-insensitive substring search; the keywords python, spring,
node and aws of the claim are ignored, and nothing else is ever emitted. -/
theorem parse_requirements_characterization (q : String) :
    ((⟨"Java", 5, "ADVANCED"⟩ : ReqSkillCore) ∈ parseSkillRequirements q ↔
      containsKw q "java" = true) ∧
    ((⟨"React", 2, "INTERMEDIATE"⟩ : ReqSkillCore) ∈ parseSkillRequirements q ↔
      (containsKw q "react" = true ∧ containsSeq "2".data q.data = true)) ∧
    ((⟨"Angular", 3, "ADVANCED"⟩ : ReqSkillCore) ∈ parseSkillRequirements q ↔
      (containsKw q "angular" = true ∧ containsSeq "3".data q.data = true)) ∧
    ((⟨"SQL", 1, "INTERMEDIATE"⟩ : ReqSkillCore) ∈ parseSkillRequirements q ↔
      containsKw q "sql" = true) ∧
    (∀ r ∈ parseSkillRequirements q,
      r.skill_name ∈ ["Java", "React", "Angular", "SQL"]) := by
  unfold parseSkillRequirements
  by_cases h1 : containsKw q "java" = true <;>
  by_cases h2 : containsKw q "react" = true <;>
  by_cases h2d : containsSeq "2".data q.data = true <;>
  by_cases h3 : containsKw q "angular" = true <;>
  by_cases h3d : containsSeq "3".data q.data = true <;>
  by_cases h4 : containsKw q "sql" = true <;>
    simp_all +decide [Bool.and_eq_true, ReqSkillCore.mk.injEq]

lemma sortDesc_trans {α : Type} (f : α → ℚ) :
    ∀ (a b c : α), (fun a b => decide (f b ≤ f a)) a b →
      (fun a b => decide (f b ≤ f a)) b c → (fun a b => decide (f b ≤ f a)) a c := by
  intro a b c hab hbc
  simp only [decide_eq_true_eq] at *
  exact le_trans hbc hab

lemma sortDesc_total {α : Type} (f : α → ℚ) :
    ∀ (a b : α), ((fun a b => decide (f b ≤ f a)) a b
      || (fun a b => decide (f b ≤ f a)) b a) := by
  intro a b
  simp only [Bool.or_eq_true, decide_eq_true_eq]
  exact le_total (f b) (f a)

lemma sortByScoreDesc_pairwise {α : Type} (f : α → ℚ) (l : List α) :
    (sortByScoreDesc f l).Pairwise (fun a b => f b ≤ f a) := by
  have h := List.sorted_mergeSort (sortDesc_trans f) (sortDesc_total f) l
  exact h.imp fun hab => by simpa using hab

lemma sortByScoreDesc_stable {α : Type} (f : α → ℚ) (l : List α) (c : ℚ) :
    (sortByScoreDesc f l).filter (fun x => decide (f x = c))
      = l.filter (fun x => decide (f x = c)) := by
  have hpw : (l.filter (fun x => decide (f x = c))).Pairwise
      (fun a b => decide (f b ≤ f a) = true) := by
    apply List.pairwise_of_forall_mem_list
    intro a ha b hb
    have ha' := (List.mem_filter.mp ha).2
    have hb' := (List.mem_filter.mp hb).2
    simp only [decide_eq_true_eq] at ha' hb' ⊢
    rw [ha', hb']
  have hsub : List.Sublist (l.filter (fun x => decide (f x = c))) (sortByScoreDesc f l) :=
    List.sublist_mergeSort (sortDesc_trans f) (sortDesc_total f) hpw
      (List.filter_sublist l)
  have hsub2 : List.Sublist (l.filter (fun x => decide (f x = c)))
      ((sortByScoreDesc f l).filter (fun x => decide (f x = c))) := by
    have h := hsub.filter (fun x => decide (f x = c))
    simpa [List.filter_filter] using h
  have hperm : List.Perm ((sortByScoreDesc f l).filter (fun x => decide (f x = c)))
      (l.filter (fun x => decide (f x = c))) :=
    (List.mergeSort_perm l _).filter _
  exact (hsub2.eq_of_length hperm.length_eq.symm).symm

/-- C8: the ranking step used by both searches (list.sort with key
total_score and reverse=True, modelled by sortByScoreDesc) yields a list
sorted by score descending in which elements of equal score keep their
original relative order, and consequently the match lists returned by
find_positions_for_employee and find_employees_by_skills are sorted by
total_score descending. -/
theorem rank_sorted_and_stable :
    (∀ (α : Type) (f : α → ℚ) (l : List α),
      (sortByScoreDesc f l).Pairwise (fun a b => f b ≤ f a) ∧
      ∀ c : ℚ, (sortByScoreDesc f l).filter (fun x => decide (f x = c))
        = l.filter (fun x => decide (f x = c))) ∧
    (∀ (today : ℤ) (e : Employee) (rs : List Requisition) (out : PositionsOut),
      findPositionsForEmployee today e rs = some out →
      out.matchesList.Pairwise (fun a b => b.total_score ≤ a.total_score)) ∧
    (∀ (today : ℤ) (emps : List Employee) (q : String) (out : EmployeesSearchOut),
      findEmployeesBySkills today emps q = some (EmployeesResponse.ok out) →
      out.matchesList.Pairwise (fun a b => b.total_score ≤ a.total_score)) := by
  refine ⟨fun α f l => ⟨sortByScoreDesc_pairwise f l, sortByScoreDesc_stable f l⟩, ?_, ?_⟩
  · intro today e rs out h
    unfold findPositionsForEmployee at h
    cases hm : computeOpenMatches today e rs with
    | none => rw [hm] at h; exact absurd h (by simp)
    | some ms =>
      rw [hm] at h
      have h2 : (⟨e.name, e.current_status,
          (sortByScoreDesc (fun m => m.total_score) ms).length,
          (sortByScoreDesc (fun m => m.total_score) ms).take 5⟩ : PositionsOut) = out :=
        Option.some.inj h
      rw [← h2]
      exact List.Pairwise.sublist (List.take_sublist 5 _)
        (sortByScoreDesc_pairwise _ ms)
  · intro today emps q out h
    unfold findEmployeesBySkills at h
    by_cases hp : (parseSkillRequirements q).isEmpty
    · rw [if_pos hp] at h
      simp at h
    · rw [if_neg hp] at h
      cases hm : computeEmployeeMatches today (parseSkillRequirements q) emps with
      | none => rw [hm] at h; exact absurd h (by simp)
      | some ms =>
        rw [hm] at h
        have h2 : EmployeesResponse.ok (⟨parseSkillRequirements q,
            (sortByScoreDesc (fun m => m.total_score) ms).length,
            sortByScoreDesc (fun m => m.total_score) ms⟩ : EmployeesSearchOut)
            = EmployeesResponse.ok out :=
          Option.some.inj h
        injection h2 with h3
        rw [← h3]
        exact sortByScoreDesc_pairwise _ ms

/-- Witness for C8 at the concrete search of EMP001 against the single
requisition REQ001, and at the concrete manager query "java" over the
single employee EMP001. -/
theorem rank_sorted_and_stable_witness :
    (∃ out, findPositionsForEmployee 0 emp001 [req001] = some out ∧
      out.matchesList.Pairwise (fun a b => b.total_score ≤ a.total_score)) ∧
    (∃ out, findEmployeesBySkills 0 [emp001] "java" = some (EmployeesResponse.ok out) ∧
      out.matchesList.Pairwise (fun a b => b.total_score ≤ a.total_score)) := by
  constructor
  · cases h : findPositionsForEmployee 0 emp001 [req001] with
    | none =>
      exact absurd h (by
        simp [findPositionsForEmployee, computeOpenMatches, calcEmployeeRequisitionMatch,
          reqSkillRows, emp001, req001, findEmpSkill, ciEq, lowerChars, calcSkillMatchScore,
          checkAvailability])
    | some out => exact ⟨out, rfl, rank_sorted_and_stable.2.1 0 emp001 [req001] out h⟩
  · cases h : findEmployeesBySkills 0 [emp001] "java" with
    | none =>
      exact absurd h (by
        simp [findEmployeesBySkills, parseSkillRequirements, computeEmployeeMatches,
          availableStatuses, calcEmployeeSkillMatch, skillReqRows, emp001, findEmpSkill,
          ciEq, lowerChars, calcSkillMatchScore, containsKw, containsSeq])
    | some resp =>
      cases resp with
      | failed msg =>
        exact absurd h (by
          simp [findEmployeesBySkills, parseSkillRequirements, computeEmployeeMatches,
            availableStatuses, calcEmployeeSkillMatch, skillReqRows, emp001, findEmpSkill,
            ciEq, lowerChars, calcSkillMatchScore, containsKw, containsSeq])
      | ok out => exact ⟨out, rfl, rank_sorted_and_stable.2.2 0 [emp001] "java" out h⟩

lemma calcMatch_isSome (today : ℤ) (e : Employee) (req : Requisition)
    (hmin : ∀ r ∈ req.required_skills, r.min_experience ≠ 0)
    (havail : e.current_status = "TRANSITIONING" → e.project_end_date.isSome) :
    ∃ m, calcEmployeeRequisitionMatch today e req = some m := by
  obtain ⟨rows, miss, hrows⟩ := reqSkillRows_total e.skills req.required_skills hmin
  obtain ⟨a, ha⟩ := checkAvailability_isSome today e havail
  exact ⟨⟨req.requisition_id, req.project_name, req.role_title, req.location,
    req.start_date, round2 (if maxScore req.required_skills > 0
      then specWeightedSum e.skills req.required_skills / maxScore req.required_skills * 100
      else 0), rows, miss, a⟩, by simp [calcEmployeeRequisitionMatch, hrows, ha]⟩

lemma computeOpenMatches_filter (today : ℤ) (e : Employee)
    (havail : e.current_status = "TRANSITIONING" → e.project_end_date.isSome) :
    ∀ (rs : List Requisition),
    (∀ req ∈ rs, req.status = "OPEN" → ∀ r ∈ req.required_skills, r.min_experience ≠ 0) →
    ∃ L, allOpenMatches today e rs = some L ∧
      computeOpenMatches today e rs
        = some (L.filter (fun m => decide (0 < m.total_score)))
  | [], _ => ⟨[], rfl, rfl⟩
  | req :: rest, hmin => by
    obtain ⟨L, hall, hcomp⟩ := computeOpenMatches_filter today e havail rest
      fun x hx => hmin x (List.mem_cons_of_mem _ hx)
    by_cases hopen : req.status = "OPEN"
    · obtain ⟨m, hm⟩ := calcMatch_isSome today e req
        (hmin req (List.mem_cons_self _ _) hopen) havail
      refine ⟨m :: L, ?_, ?_⟩
      · simp [allOpenMatches, hopen, hm, hall]
      · by_cases hp : m.total_score > 0 <;>
          simp [computeOpenMatches, hopen, hm, hcomp, List.filter_cons, hp]
    · exact ⟨L, by simp [allOpenMatches, hopen, hall],
        by simp [computeOpenMatches, hopen, hcomp]⟩

lemma calcSkillMatch_isSome (today : ℤ) (e : Employee) (reqs : List ReqSkillCore)
    (hmin : ∀ r ∈ reqs, r.min_experience ≠ 0) :
    ∃ m, calcEmployeeSkillMatch today e reqs = some m := by
  obtain ⟨rows, miss, hrows⟩ := skillReqRows_total e.skills reqs hmin
  exact ⟨⟨e.employee_id, e.name, e.current_status, e.location, e.performance_rating,
    round2 (if reqs.isEmpty then 0
      else specPlainSum e.skills reqs / (reqs.length : ℚ) * 100),
    rows, miss, if e.bench_start_date.isSome then calcBenchDays today e else 0⟩,
    by simp [calcEmployeeSkillMatch, hrows]⟩

lemma computeEmployeeMatches_filter (today : ℤ) (reqs : List ReqSkillCore)
    (hmin : ∀ r ∈ reqs, r.min_experience ≠ 0) :
    ∀ (emps : List Employee),
    ∃ L, allEmployeeMatches today reqs emps = some L ∧
      computeEmployeeMatches today reqs emps
        = some (L.filter (fun m => decide (0 < m.total_score)))
  | [] => ⟨[], rfl, rfl⟩
  | e :: rest => by
    obtain ⟨L, hall, hcomp⟩ := computeEmployeeMatches_filter today reqs hmin rest
    by_cases hel : e.current_status ∈ availableStatuses
    · obtain ⟨m, hm⟩ := calcSkillMatch_isSome today e reqs hmin
      refine ⟨m :: L, ?_, ?_⟩
      · simp [allEmployeeMatches, hel, hm, hall]
      · by_cases hp : m.total_score > 0 <;>
          simp [computeEmployeeMatches, hel, hm, hcomp, List.filter_cons, hp]
    · exact ⟨L, by simp [allEmployeeMatches, hel, hall],
        by simp [computeEmployeeMatches, hel, hcomp]⟩

lemma mem_ite_singleton {c : Prop} [Decidable c] {x r : ReqSkillCore}
    (h : r ∈ if c then [x] else []) : r = x := by
  split at h
  · simpa using h
  · simp at h

lemma parse_min_ne_zero (q : String) :
    ∀ r ∈ parseSkillRequirements q, r.min_experience ≠ 0 := by
  intro r hr
  unfold parseSkillRequirements at hr
  simp only [List.mem_append] at hr
  rcases hr with ((h | h) | h) | h <;> rw [mem_ite_singleton h] <;> norm_num

/-- C10: in find_positions_for_employee every computed match with
total_score 0 is silently dropped: the matches list holds only results
with positive score and total_matches counts only those; likewise in
find_employees_by_skills for total_employees_found and its matches
list. -/
theorem zero_score_matches_excluded :
    (∀ (today : ℤ) (e : Employee) (rs : List Requisition),
      (∀ req ∈ rs, req.status = "OPEN" →
        ∀ r ∈ req.required_skills, r.min_experience ≠ 0) →
      (e.current_status = "TRANSITIONING" → e.project_end_date.isSome) →
      ∃ L out, allOpenMatches today e rs = some L ∧
        findPositionsForEmployee today e rs = some out ∧
        out.total_matches = (L.filter (fun m => decide (0 < m.total_score))).length ∧
        out.matchesList = (sortByScoreDesc (fun m => m.total_score)
          (L.filter (fun m => decide (0 < m.total_score)))).take 5 ∧
        ∀ m ∈ out.matchesList, m.total_score ≠ 0) ∧
    (∀ (today : ℤ) (emps : List Employee) (q : String),
      parseSkillRequirements q ≠ [] →
      ∃ L out, allEmployeeMatches today (parseSkillRequirements q) emps = some L ∧
        findEmployeesBySkills today emps q = some (EmployeesResponse.ok out) ∧
        out.total_employees_found
          = (L.filter (fun m => decide (0 < m.total_score))).length ∧
        ∀ m ∈ out.matchesList, m.total_score ≠ 0) := by
  constructor
  · intro today e rs hmin havail
    obtain ⟨L, hall, hcomp⟩ := computeOpenMatches_filter today e havail rs hmin
    refine ⟨L, ⟨e.name, e.current_status,
      (sortByScoreDesc (fun m => m.total_score)
        (L.filter (fun m => decide (0 < m.total_score)))).length,
      (sortByScoreDesc (fun m => m.total_score)
        (L.filter (fun m => decide (0 < m.total_score)))).take 5⟩,
      hall, by simp [findPositionsForEmployee, hcomp], ?_, rfl, ?_⟩
    · show (sortByScoreDesc _ _).length = _
      simp [sortByScoreDesc]
    · intro m hmem
      have hmem2 : m ∈ sortByScoreDesc (fun m => m.total_score)
          (L.filter (fun m => decide (0 < m.total_score))) :=
        List.take_subset 5 _ hmem
      have hmem3 : m ∈ L.filter (fun m => decide (0 < m.total_score)) := by
        unfold sortByScoreDesc at hmem2
        exact List.mem_mergeSort.mp hmem2
      have := (List.mem_filter.mp hmem3).2
      simp only [decide_eq_true_eq] at this
      exact this.ne'
  · intro today emps q hne
    obtain ⟨L, hall, hcomp⟩ :=
      computeEmployeeMatches_filter today (parseSkillRequirements q)
        (parse_min_ne_zero q) emps
    refine ⟨L, ⟨parseSkillRequirements q,
      (sortByScoreDesc (fun m => m.total_score)
        (L.filter (fun m => decide (0 < m.total_score)))).length,
      sortByScoreDesc (fun m => m.total_score)
        (L.filter (fun m => decide (0 < m.total_score)))⟩,
      hall, ?_, ?_, ?_⟩
    · unfold findEmployeesBySkills
      rw [if_neg (by simpa [List.isEmpty_iff] using hne)]
      simp [hcomp]
    · show (sortByScoreDesc _ _).length = _
      simp [sortByScoreDesc]
    · intro m hmem
      have hmem3 : m ∈ L.filter (fun m => decide (0 < m.total_score)) := by
        unfold sortByScoreDesc at hmem
        exact List.mem_mergeSort.mp hmem
      have := (List.mem_filter.mp hmem3).2
      simp only [decide_eq_true_eq] at this
      exact this.ne'

/-- Witness for C10 at EMP001 against the single requisition REQ001, and
at the concrete manager query "java" over the single employee EMP001. -/
theorem zero_score_matches_excluded_witness :
    (∃ L out, allOpenMatches 0 emp001 [req001] = some L ∧
      findPositionsForEmployee 0 emp001 [req001] = some out ∧
      out.total_matches = (L.filter (fun m => decide (0 < m.total_score))).length ∧
      out.matchesList = (sortByScoreDesc (fun m => m.total_score)
        (L.filter (fun m => decide (0 < m.total_score)))).take 5 ∧
      ∀ m ∈ out.matchesList, m.total_score ≠ 0) ∧
    (∃ L out, allEmployeeMatches 0 (parseSkillRequirements "java") [emp001] = some L ∧
      findEmployeesBySkills 0 [emp001] "java" = some (EmployeesResponse.ok out) ∧
      out.total_employees_found
        = (L.filter (fun m => decide (0 < m.total_score))).length ∧
      ∀ m ∈ out.matchesList, m.total_score ≠ 0) :=
  ⟨zero_score_matches_excluded.1 0 emp001 [req001]
    (by
      intro req hreq hopen r hr
      fin_cases hreq
      simp only [req001] at hr
      fin_cases hr <;> norm_num)
    (fun h => absurd h (by decide)),
  zero_score_matches_excluded.2 0 [emp001] "java" (by decide)⟩

/-- Witness for the amended C9 at the concrete query "java react 2". -/
theorem parse_requirements_characterization_witness :
    ((⟨"Java", 5, "ADVANCED"⟩ : ReqSkillCore) ∈ parseSkillRequirements "java react 2") ∧
    (⟨"Java", 5, "ADVANCED"⟩ : ReqSkillCore).skill_name
      ∈ ["Java", "React", "Angular", "SQL"] := by
  have h := parse_requirements_characterization "java react 2"
  have hj : (⟨"Java", 5, "ADVANCED"⟩ : ReqSkillCore)
      ∈ parseSkillRequirements "java react 2" := h.1.mpr (by decide)
  exact ⟨hj, h.2.2.2.2 _ hj⟩

end TFO
